import Mathlib

/-!
Verification development for the DriveCode repository: a voice-driven coding
assistant whose frontend (Next.js) streams audio to a backend orchestrator
over Socket.IO, receives status and narration events, and gates an
irreversible pull-request merge behind a voice confirmation.

The definitions below are shallow embeddings of the repository's code:
the top-level screen state machine of frontend/app/page.tsx, the recording
and playback logic of frontend/components/voice-loop/voice-interface.tsx,
and (modelled from the spec, since the backend source is not in the
repository snapshot) the merge-gate state machine with its approve/reject
keyword classifier.
-/

namespace DriveCode

/-! ## Top-level application state machine (frontend/app/page.tsx) -/

/-- A repository record as held by the frontend (fields relevant here). -/
structure Repo where
  id : Nat
  name : String
  full_name : String
deriving DecidableEq

/-- The four screens of VoiceLoopApp (`type Screen` in page.tsx). -/
inductive Screen where
  | login
  | callback
  | dashboard
  | voice
deriving DecidableEq

/-- React component state of VoiceLoopApp: the four useState hooks. -/
structure AppState where
  currentScreen : Screen
  selectedRepo : Option Repo
  isAuthenticated : Bool
  token : Option String
deriving DecidableEq

/-- Browser-visible state outside the component: the token query parameter of
the current URL, and durable storage (localStorage / cookies / database),
modelled as a key-value list. The component code never touches durable
storage, which is what claim C3 asserts. -/
structure BrowserState where
  queryToken : Option String
  durable : List (String × String)
deriving DecidableEq

/-- The mount effect of VoiceLoopApp (page.tsx lines 27-37): if the URL
carries a token query parameter, store it in component state, mark
authenticated, go to the dashboard, and rewrite the URL without the query
string (window.history.replaceState). -/
def mountEffect : BrowserState × AppState → BrowserState × AppState
  | (b, s) =>
    match b.queryToken with
    | some tok =>
        ({ b with queryToken := none },
         { s with token := some tok, isAuthenticated := true,
                  currentScreen := Screen.dashboard })
    | none => (b, s)

/-- handleSelectRepo (page.tsx lines 44-46). -/
def handleSelectRepo (r : Repo) (s : AppState) : AppState :=
  { s with selectedRepo := some r }

/-- handleStartCoding (page.tsx lines 48-52): switch to the voice screen
only when a repository is selected. -/
def handleStartCoding (s : AppState) : AppState :=
  if s.selectedRepo.isSome then { s with currentScreen := Screen.voice } else s

/-- handleBack (page.tsx lines 54-56). -/
def handleBack (s : AppState) : AppState :=
  { s with currentScreen := Screen.dashboard }

/-- handleSignOut (page.tsx lines 58-62): clears the authenticated flag and
the selected repository and returns to the login screen. Note: it does not
touch the token state. -/
def handleSignOut (s : AppState) : AppState :=
  { s with isAuthenticated := false, selectedRepo := none,
           currentScreen := Screen.login }

/-- The events VoiceLoopApp reacts to. handleLogin only navigates away to
the backend OAuth endpoint and changes no component or durable state. -/
inductive AppEvent where
  | mount
  | login
  | selectRepo (r : Repo)
  | startCoding
  | back
  | signOut

/-- One step of the VoiceLoopApp state machine. -/
def appStep (e : AppEvent) (bs : BrowserState × AppState) :
    BrowserState × AppState :=
  match e with
  | AppEvent.mount => mountEffect bs
  | AppEvent.login => bs
  | AppEvent.selectRepo r => (bs.1, handleSelectRepo r bs.2)
  | AppEvent.startCoding => (bs.1, handleStartCoding bs.2)
  | AppEvent.back => (bs.1, handleBack bs.2)
  | AppEvent.signOut => (bs.1, handleSignOut bs.2)

/-- Run a sequence of events. -/
def appRun (evs : List AppEvent) (bs : BrowserState × AppState) :
    BrowserState × AppState :=
  evs.foldl (fun bs e => appStep e bs) bs

/-- The initial component state (the useState initialisers of page.tsx). -/
def initialApp : AppState :=
  { currentScreen := Screen.login, selectedRepo := none,
    isAuthenticated := false, token := none }

/-- The render guard of VoiceLoopApp (page.tsx lines 72-74): the
VoiceInterface is rendered exactly when the screen is voice and a
repository is selected. -/
def rendersVoiceInterface (s : AppState) : Bool :=
  s.currentScreen = Screen.voice ∧ s.selectedRepo.isSome

/-- A concrete repository used in witnesses. -/
def repo0 : Repo := { id := 1, name := "demo", full_name := "user/demo" }

/-! Helper lemmas for the screen-machine invariant. -/

lemma appStep_durable (e : AppEvent) (bs : BrowserState × AppState) :
    (appStep e bs).1.durable = bs.1.durable := by
  cases e with
  | mount =>
      obtain ⟨b, s⟩ := bs
      simp only [appStep, mountEffect]
      cases b.queryToken <;> rfl
  | login => rfl
  | selectRepo r => rfl
  | startCoding => rfl
  | back => rfl
  | signOut => rfl

lemma appRun_durable (evs : List AppEvent) (bs : BrowserState × AppState) :
    (appRun evs bs).1.durable = bs.1.durable := by
  induction evs generalizing bs with
  | nil => rfl
  | cons e es ih =>
      simpa [appRun, List.foldl] using
        (ih (appStep e bs)).trans (appStep_durable e bs)

/-- The voice-screen invariant: whenever the current screen is voice,
a repository is selected. -/
def voiceInv (s : AppState) : Prop :=
  s.currentScreen = Screen.voice → s.selectedRepo.isSome

lemma appStep_voiceInv (e : AppEvent) (bs : BrowserState × AppState)
    (h : voiceInv bs.2) : voiceInv (appStep e bs).2 := by
  cases e with
  | mount =>
      obtain ⟨b, s⟩ := bs
      simp only [appStep, mountEffect]
      cases b.queryToken with
      | none => exact h
      | some tok => intro hc; simp at hc
  | login => exact h
  | selectRepo r => intro _; simp [appStep, handleSelectRepo]
  | startCoding =>
      intro hc
      simp only [appStep, handleStartCoding] at hc ⊢
      by_cases hr : bs.2.selectedRepo.isSome
      · simp [hr]
      · simp only [hr, if_false] at hc ⊢
        exact h hc
  | back => intro hc; simp [appStep, handleBack] at hc
  | signOut => intro hc; simp [appStep, handleSignOut] at hc

lemma appRun_voiceInv (evs : List AppEvent) (bs : BrowserState × AppState)
    (h : voiceInv bs.2) : voiceInv (appRun evs bs).2 := by
  induction evs generalizing bs with
  | nil => exact h
  | cons e es ih =>
      exact ih (appStep e bs) (appStep_voiceInv e bs h)

/-! ## Claims about the screen state machine -/

/-- Claim C2 (code_bug evidence): handleSignOut, run on a signed-in state
holding a bearer token, leaves the token in the application state; only the
authenticated flag, the selected repository and the screen change. The spec
requires explicit sign-out to release the in-memory credential immediately,
so the code diverges from the claim at this input. -/
theorem sign_out_keeps_token :
    (handleSignOut
      { currentScreen := Screen.dashboard, selectedRepo := some repo0,
        isAuthenticated := true, token := some "gho_secret" }).token
      = some "gho_secret" ∧
    (handleSignOut
      { currentScreen := Screen.dashboard, selectedRepo := some repo0,
        isAuthenticated := true, token := some "gho_secret" }).isAuthenticated
      = false := by
  constructor <;> rfl

/-- Claim C3: no operation of the application ever writes to durable
storage (so the token, held only in component state, is never persisted),
and the mount effect always leaves the URL without a token query parameter
(the token-bearing URL is removed from browser history on mount). -/
theorem token_never_durable (evs : List AppEvent) (b : BrowserState)
    (s : AppState) :
    (appRun evs (b, s)).1.durable = b.durable ∧
    (mountEffect (b, s)).1.queryToken = none := by
  refine ⟨appRun_durable evs (b, s), ?_⟩
  simp only [mountEffect]
  cases h : b.queryToken <;> simp [h]

/-- Claim C10: in every state reachable from the initial state, the screen
is voice only when a repository is selected; moreover the render guard
itself admits the VoiceInterface only with a selected repository. -/
theorem voice_screen_requires_repo (evs : List AppEvent) (b : BrowserState) :
    ((appRun evs (b, initialApp)).2.currentScreen = Screen.voice →
      (appRun evs (b, initialApp)).2.selectedRepo.isSome) ∧
    (∀ s : AppState, rendersVoiceInterface s = true → s.selectedRepo.isSome) := by
  constructor
  · exact appRun_voiceInv evs (b, initialApp) (by intro hc; simp [initialApp] at hc)
  · intro s hs
    simpa [rendersVoiceInterface] using (of_decide_eq_true hs).2

/-- Witness for C10: a concrete run (mount with a token, select a
repository, start coding) reaches the voice screen with a repository
selected. -/
theorem voice_screen_requires_repo_witness :
    (appRun [AppEvent.mount, AppEvent.selectRepo repo0, AppEvent.startCoding]
      (⟨some "tok", []⟩, initialApp)).2.selectedRepo.isSome = true := by
  exact (voice_screen_requires_repo
    [AppEvent.mount, AppEvent.selectRepo repo0, AppEvent.startCoding]
    ⟨some "tok", []⟩).1 (by decide)

/-! ## Voice interface: recording and socket emission
(frontend/components/voice-loop/voice-interface.tsx) -/

/-- A payload sent on the socket. The source emits the raw MediaRecorder
blob (`socket.emit("audio_stream", event.data)`); `taggedBlob` is the
sequence-numbered payload the spec describes, kept for the refinement
comparison of claim C4. -/
inductive WirePayload where
  | blob (data : List Nat)
  | taggedBlob (seq : Nat) (data : List Nat)
deriving DecidableEq

/-- Whether a payload carries a sequence-number tag (what the spec's
"sequenced binary payload" requires). -/
def carriesSeqTag : WirePayload → Bool
  | WirePayload.blob _ => false
  | WirePayload.taggedBlob _ _ => true

/-- A client→orchestrator socket event. -/
inductive SocketEmit where
  | audioStream (p : WirePayload)
  | endOfSpeech (repoName : String)
deriving DecidableEq

/-- recorder.ondataavailable (voice-interface.tsx lines 157-161): when a
chunk arrives from the MediaRecorder, emit it on the socket if it is
non-empty and the socket variable is set. The payload is the raw blob. -/
def ondataavailableEmits (socketPresent : Bool) (data : List Nat) :
    List SocketEmit :=
  if 0 < data.length ∧ socketPresent = true then
    [SocketEmit.audioStream (WirePayload.blob data)]
  else []

/-- The MediaRecorder states. -/
inductive RecPhase where
  | recording
  | paused
  | inactive
deriving DecidableEq

/-- The recorder-related component state of VoiceInterface:
mediaRecorderRef (none when no recorder was created), isListening and the
transcript bar text. -/
structure RecorderUi where
  recorder : Option RecPhase
  isListening : Bool
  transcript : String
deriving DecidableEq

/-- stopRecording (voice-interface.tsx lines 173-188): if a recorder exists
and is not inactive, stop it and its tracks, emit one end_of_speech event
carrying the selected repository's full_name if the socket is set, and
update the UI state. Returns the new UI state and the emitted events. -/
def stopRecording (ui : RecorderUi) (socketPresent : Bool)
    (repoFullName : String) : RecorderUi × List SocketEmit :=
  match ui.recorder with
  | some ph =>
      if ph ≠ RecPhase.inactive then
        ({ ui with recorder := some RecPhase.inactive, isListening := false,
                   transcript := "Processing..." },
         if socketPresent then [SocketEmit.endOfSpeech repoFullName] else [])
      else (ui, [])
  | none => (ui, [])

/-- Claim C4 counterexample: the audio_stream event emitted for a concrete
chunk carries the raw blob, which bears no sequence-number tag — the claim
that every emitted chunk is tagged with a monotonic sequence number fails
on the very first chunk. -/
theorem audio_chunk_untagged_cex :
    ondataavailableEmits true [1, 2, 3]
      = [SocketEmit.audioStream (WirePayload.blob [1, 2, 3])] ∧
    carriesSeqTag (WirePayload.blob [1, 2, 3]) = false := by
  constructor <;> rfl

/-- Claim C4 (amended): every non-empty chunk the recorder produces while
the socket variable is set is emitted as exactly one audio_stream event
whose payload is the raw, untagged chunk. -/
theorem audio_chunk_emitted_raw (socketPresent : Bool) (data : List Nat)
    (hd : 0 < data.length) (hs : socketPresent = true) :
    ondataavailableEmits socketPresent data
      = [SocketEmit.audioStream (WirePayload.blob data)] := by
  simp [ondataavailableEmits, hd, hs]

/-- Witness for the amended C4 at a concrete chunk. -/
theorem audio_chunk_emitted_raw_witness :
    ondataavailableEmits true [7]
      = [SocketEmit.audioStream (WirePayload.blob [7])] :=
  audio_chunk_emitted_raw true [7] (by decide) rfl

/-- Claim C5: stopping an active recording (recorder exists and is not
inactive) while the socket is set emits exactly one end_of_speech event,
and that event carries the repository identifier passed by the caller
(the source passes selectedRepo.full_name). -/
theorem stop_recording_emits_eos (ui : RecorderUi) (repoFullName : String)
    (ph : RecPhase) (hrec : ui.recorder = some ph)
    (hact : ph ≠ RecPhase.inactive) :
    (stopRecording ui true repoFullName).2
      = [SocketEmit.endOfSpeech repoFullName] := by
  simp [stopRecording, hrec, hact]

/-- Witness for C5 at a concrete active recorder state. -/
theorem stop_recording_emits_eos_witness :
    (stopRecording
      { recorder := some RecPhase.recording, isListening := true,
        transcript := "Listening..." } true "user/demo").2
      = [SocketEmit.endOfSpeech "user/demo"] :=
  stop_recording_emits_eos
    { recorder := some RecPhase.recording, isListening := true,
      transcript := "Listening..." } "user/demo" RecPhase.recording rfl
    (by decide)

/-! ## Session teardown (claim C8) -/

/-- The session-level view of the voice interface used for claim C8:
whether the socket variable holds an object, whether the connection is
open, the recorder phase, the log of client-side emit calls, and the
events actually ingested by the server (only possible while the connection
is open). -/
structure VoiceSession where
  socketObj : Bool
  socketOpen : Bool
  recPhase : Option RecPhase
  emitted : List SocketEmit
  delivered : List SocketEmit
deriving DecidableEq

/-- handleEndSession (voice-interface.tsx lines 198-200) calls onBack,
which unmounts the component; the useEffect cleanup (lines 144-147) closes
the socket. Nothing stops the MediaRecorder or its tracks, and the socket
variable still references the (closed) socket object. -/
def endSession (s : VoiceSession) : VoiceSession :=
  { s with socketOpen := false }

/-- A MediaRecorder chunk firing ondataavailable: while the recorder is
recording, a non-empty chunk is emitted whenever the socket variable is
set (the source guard `event.data.size > 0 && socket` does not check that
the connection is open); it reaches the server only if the connection is
still open. -/
def recorderChunk (s : VoiceSession) (data : List Nat) : VoiceSession :=
  if s.recPhase = some RecPhase.recording ∧ 0 < data.length ∧
      s.socketObj = true then
    { s with
      emitted := s.emitted ++ [SocketEmit.audioStream (WirePayload.blob data)],
      delivered := s.delivered ++
        (if s.socketOpen then
          [SocketEmit.audioStream (WirePayload.blob data)] else []) }
  else s

/-- A concrete mid-recording session used for the C8 counterexample. -/
def session0 : VoiceSession :=
  { socketObj := true, socketOpen := true,
    recPhase := some RecPhase.recording, emitted := [], delivered := [] }

/-- Claim C8 counterexample: with a recording in progress, ending the
session closes the socket but does not stop the recorder, so the next
chunk still triggers a client-side audio_stream emit — refuting the claim
that no further audio chunks are emitted after the session ends. -/
theorem end_session_still_emits_cex :
    (recorderChunk (endSession session0) [9]).emitted ≠
      (endSession session0).emitted := by
  decide

lemma recorderChunk_closed_delivered (s : VoiceSession) (data : List Nat)
    (h : s.socketOpen = false) :
    (recorderChunk s data).delivered = s.delivered ∧
    (recorderChunk s data).socketOpen = false := by
  unfold recorderChunk
  split
  · simp [h]
  · exact ⟨rfl, h⟩

lemma foldl_recorderChunk_closed (chunks : List (List Nat))
    (s : VoiceSession) (h : s.socketOpen = false) :
    (chunks.foldl recorderChunk s).delivered = s.delivered ∧
    (chunks.foldl recorderChunk s).socketOpen = false := by
  induction chunks generalizing s with
  | nil => exact ⟨rfl, h⟩
  | cons c cs ih =>
      obtain ⟨h1, h2⟩ := recorderChunk_closed_delivered s c h
      obtain ⟨h3, h4⟩ := ih (recorderChunk s c) h2
      exact ⟨h3.trans h1, h4⟩

/-- Claim C8 (amended): ending the session closes the socket, after which
no further audio chunk is ingested by the server (delivered is unchanged
by any subsequent chunks and the connection stays closed); but a recording
still in progress is not stopped, and a non-empty chunk is still emitted
client-side into the closed socket. -/
theorem end_session_stops_ingestion (s : VoiceSession)
    (chunks : List (List Nat)) :
    (chunks.foldl recorderChunk (endSession s)).delivered
        = (endSession s).delivered ∧
    (chunks.foldl recorderChunk (endSession s)).socketOpen = false ∧
    (∀ data : List Nat, s.recPhase = some RecPhase.recording →
      s.socketObj = true → 0 < data.length →
      (recorderChunk (endSession s) data).emitted
        = s.emitted ++ [SocketEmit.audioStream (WirePayload.blob data)]) := by
  obtain ⟨h1, h2⟩ := foldl_recorderChunk_closed chunks (endSession s) rfl
  refine ⟨h1, h2, ?_⟩
  intro data hrec hobj hd
  simp [recorderChunk, endSession, hrec, hobj, hd]

/-- Witness for the amended C8 at a concrete session and chunk list. -/
theorem end_session_stops_ingestion_witness :
    (([[9], [4, 2]] : List (List Nat)).foldl recorderChunk
        (endSession session0)).delivered = (endSession session0).delivered ∧
    (recorderChunk (endSession session0) [9]).emitted
      = session0.emitted ++ [SocketEmit.audioStream (WirePayload.blob [9])] :=
  ⟨(end_session_stops_ingestion session0 [[9], [4, 2]]).1,
   (end_session_stops_ingestion session0 [[9], [4, 2]]).2.2 [9] rfl rfl
     (by decide)⟩

/-! ## TTS playback queue (voice-interface.tsx lines 88-132) -/

/-- The playback state of the audio_response handler: audioQueueRef (clips
waiting, front first), isPlayingRef, and the log of clips whose playback
was started, in order. A clip is its decoded byte list. -/
structure PlayerState where
  queue : List (List Nat)
  isPlaying : Bool
  started : List (List Nat)
deriving DecidableEq

/-- playNextAudio: shift the front of the queue and start playing it, or
clear the playing flag when the queue is empty. Called when a clip ends,
when its playback errors, and when play() rejects — all three continue
with the next clip. -/
def playNextAudio (s : PlayerState) : PlayerState :=
  match s.queue with
  | [] => { s with isPlaying := false }
  | c :: rest =>
      { queue := rest, isPlaying := true, started := s.started ++ [c] }

/-- The enqueue part of the audio_response handler: push the decoded clip
onto the queue, then start the playback loop if it is not already
running. -/
def enqueueClip (c : List Nat) (s : PlayerState) : PlayerState :=
  if s.isPlaying then { s with queue := s.queue ++ [c] }
  else playNextAudio { s with queue := s.queue ++ [c] }

/-- Events driving the playback loop: a decodable clip arriving on
audio_response, or the current clip finishing (normally or with a playback
error — the handler reacts identically, advancing to the next clip). -/
inductive PlayerEvent where
  | arrive (c : List Nat)
  | finished (playbackError : Bool)

/-- One step of the playback loop. -/
def playerStep (e : PlayerEvent) (s : PlayerState) : PlayerState :=
  match e with
  | PlayerEvent.arrive c => enqueueClip c s
  | PlayerEvent.finished _ => playNextAudio s

/-- Run a sequence of playback events. -/
def playerRun (evs : List PlayerEvent) (s : PlayerState) : PlayerState :=
  evs.foldl (fun s e => playerStep e s) s

/-- The clips delivered by a sequence of events, in arrival order. -/
def arrivals : List PlayerEvent → List (List Nat)
  | [] => []
  | PlayerEvent.arrive c :: es => c :: arrivals es
  | PlayerEvent.finished _ :: es => arrivals es

lemma playNextAudio_concat (s : PlayerState) :
    (playNextAudio s).started ++ (playNextAudio s).queue
      = s.started ++ s.queue := by
  unfold playNextAudio
  cases s.queue with
  | nil => simp
  | cons c rest => simp

lemma enqueueClip_concat (c : List Nat) (s : PlayerState) :
    (enqueueClip c s).started ++ (enqueueClip c s).queue
      = s.started ++ s.queue ++ [c] := by
  unfold enqueueClip
  by_cases h : s.isPlaying = true
  · rw [if_pos h]; simp
  · rw [if_neg h, playNextAudio_concat]; simp

lemma playerStep_concat (e : PlayerEvent) (s : PlayerState) :
    (playerStep e s).started ++ (playerStep e s).queue
      = s.started ++ s.queue ++ arrivals [e] := by
  cases e with
  | arrive c => simpa [playerStep, arrivals] using enqueueClip_concat c s
  | finished b => simpa [playerStep, arrivals] using playNextAudio_concat s

lemma arrivals_cons (e : PlayerEvent) (es : List PlayerEvent) :
    arrivals (e :: es) = arrivals [e] ++ arrivals es := by
  cases e <;> simp [arrivals]

/-- Claim C6: for every sequence of playback events, the clips whose
playback has started followed by the clips still queued are exactly the
prior state's clips followed by the arrivals in arrival order — playback
is first-in-first-out, nothing is dropped or reordered; and a playback
error advances to the next clip exactly as a normal clip end does. -/
theorem playback_fifo (evs : List PlayerEvent) (s : PlayerState) :
    (playerRun evs s).started ++ (playerRun evs s).queue
        = s.started ++ s.queue ++ arrivals evs ∧
    (∀ t : PlayerState,
      playerStep (PlayerEvent.finished true) t
        = playerStep (PlayerEvent.finished false) t) := by
  constructor
  · induction evs generalizing s with
    | nil => simp [playerRun, arrivals]
    | cons e es ih =>
        have hstep := playerStep_concat e s
        calc (playerRun (e :: es) s).started ++ (playerRun (e :: es) s).queue
            = (playerStep e s).started ++ (playerStep e s).queue
                ++ arrivals es := ih (playerStep e s)
          _ = s.started ++ s.queue ++ arrivals (e :: es) := by
                rw [hstep, arrivals_cons e es]; simp
  · intro t; rfl

/-! ## audio_response decoding (voice-interface.tsx lines 88-132)

The handler reads data.audio, splits it with the regex /.{1,2}/g, maps
each piece through parseInt(piece, 16), builds a Uint8Array (NaN becomes
byte 0), and enqueues the clip. The whole body is wrapped in try/catch:
a missing audio field ('undefined.match') or a null match result
('null.map') throws inside the body and is caught and logged, leaving the
player state untouched. -/

/-- Whether the regex metacharacter `.` matches a character: everything
but a newline. -/
def jsDot (ch : Char) : Bool := ch ≠ '\n'

/-- The scan behind /.{1,2}/g, with explicit fuel so the recursion is
structural (and hence kernel-computable): scanning left to right, each
match greedily takes one or two consecutive non-newline characters; a
character `.` cannot match is skipped. Every step consumes at least one
character, so fuel equal to the list length never runs out. -/
def jsMatchChunksFuel : Nat → List Char → List (List Char)
  | 0, _ => []
  | _ + 1, [] => []
  | fuel + 1, a :: rest =>
      if jsDot a then
        match rest with
        | b :: rest2 =>
            if jsDot b then [a, b] :: jsMatchChunksFuel fuel rest2
            else [a] :: jsMatchChunksFuel fuel rest
        | [] => [[a]]
      else jsMatchChunksFuel fuel rest

/-- The list of matches of /.{1,2}/g over a character list. -/
def jsMatchChunks (l : List Char) : List (List Char) :=
  jsMatchChunksFuel l.length l

/-- String.prototype.match with a /g regex: null (here none) when there is
no match at all, otherwise the list of matches. -/
def jsMatch (s : String) : Option (List (List Char)) :=
  match jsMatchChunks s.toList with
  | [] => none
  | ms => some ms

/-- The value of a hexadecimal digit, if any. -/
def hexDigitVal (c : Char) : Option Nat :=
  if '0' ≤ c ∧ c ≤ '9' then some (c.toNat - '0'.toNat)
  else if 'a' ≤ c ∧ c ≤ 'f' then some (c.toNat - 'a'.toNat + 10)
  else if 'A' ≤ c ∧ c ≤ 'F' then some (c.toNat - 'A'.toNat + 10)
  else none

/-- parseInt(str, 16) on a short piece: parse the longest prefix of hex
digits; none models NaN (no digit at all). Leading whitespace and sign
handling are irrelevant for the at-most-two-character regex pieces and for
the theorems below, which never depend on the byte values. -/
def parseHexPieces : List Char → Option Nat → Option Nat
  | [], acc => acc
  | c :: cs, acc =>
      match hexDigitVal c with
      | some d => parseHexPieces cs (some (acc.getD 0 * 16 + d))
      | none => acc

/-- A regex piece to the byte stored by the Uint8Array constructor: NaN
coerces to 0, larger values wrap modulo 256. -/
def pieceToByte (cs : List Char) : Nat :=
  (parseHexPieces cs none).getD 0 % 256

/-- The try-block of the audio_response handler, as a fallible
computation: error when the JS body would throw (audio field missing, or
the regex match returned null), otherwise the player state after
enqueueing the decoded clip. -/
def audioResponseBody (audioField : Option String) (s : PlayerState) :
    Except Unit PlayerState :=
  match audioField with
  | none => Except.error ()
  | some hex =>
      match jsMatch hex with
      | none => Except.error ()
      | some pieces => Except.ok (enqueueClip (pieces.map pieceToByte) s)

/-- The audio_response handler: the try/catch around the body logs any
thrown error and leaves the player state unchanged. -/
def audioResponseHandler (audioField : Option String) (s : PlayerState) :
    PlayerState :=
  match audioResponseBody audioField s with
  | Except.ok s2 => s2
  | Except.error _ => s

/-- Claim C9: the audio_response handler is total — on any payload whose
audio field makes the regex match yield null (or is missing entirely) the
thrown error is caught and the player state is unchanged, and on every
payload the handler's result still holds every previous clip in order
(queued playback continues with the next clip), extended by at most the
newly decoded clip. -/
theorem audio_response_handler_total (audioField : Option String)
    (s : PlayerState) :
    (∀ hex : String, audioField = some hex → jsMatch hex = none →
        audioResponseHandler audioField s = s) ∧
    (audioField = none → audioResponseHandler audioField s = s) ∧
    (∃ arrived : List (List Nat),
      (audioResponseHandler audioField s).started
          ++ (audioResponseHandler audioField s).queue
        = s.started ++ s.queue ++ arrived) := by
  refine ⟨?_, ?_, ?_⟩
  · intro hex hf hm
    simp [audioResponseHandler, audioResponseBody, hf, hm]
  · intro hf
    simp [audioResponseHandler, audioResponseBody, hf]
  · cases audioField with
    | none => exact ⟨[], by simp [audioResponseHandler, audioResponseBody]⟩
    | some hex =>
        cases hm : jsMatch hex with
        | none =>
            exact ⟨[], by simp [audioResponseHandler, audioResponseBody, hm]⟩
        | some pieces =>
            refine ⟨[pieces.map pieceToByte], ?_⟩
            simpa [audioResponseHandler, audioResponseBody, hm] using
              enqueueClip_concat (pieces.map pieceToByte) s

/-- Witness for C9: the empty string (whose /.{1,2}/g match is null)
leaves a concrete player state untouched. -/
theorem audio_response_handler_total_witness :
    audioResponseHandler (some "")
      { queue := [[1]], isPlaying := true, started := [] }
      = { queue := [[1]], isPlaying := true, started := [] } :=
  (audio_response_handler_total (some "")
    { queue := [[1]], isPlaying := true, started := [] }).1 "" rfl (by decide)

/-! ## status_change handler (voice-interface.tsx lines 67-81) -/

/-- Modelled from the spec: the enumerated orchestrator states carried by
outbound state-change notifications. The backend emitter itself is not
part of the repository snapshot; this enumeration follows the spec's
external-interface section. -/
inductive OrchState where
  | Idle
  | Analyzing
  | Generating
  | Publishing
  | AwaitingMergeDecision
  | Merging
  | Err
deriving DecidableEq

/-- Modelled from the spec: the wire encoding of an orchestrator state as
the uppercase string the frontend handler compares against (the handler
matches "ANALYZING", "GENERATING" and "IDLE"; the remaining encodings only
need to be distinct from those three). -/
def OrchState.wire : OrchState → String
  | OrchState.Idle => "IDLE"
  | OrchState.Analyzing => "ANALYZING"
  | OrchState.Generating => "GENERATING"
  | OrchState.Publishing => "PUBLISHING"
  | OrchState.AwaitingMergeDecision => "AWAITING_MERGE_DECISION"
  | OrchState.Merging => "MERGING"
  | OrchState.Err => "ERROR"

/-- The displayed connection status of VoiceInterface. -/
inductive UiStatus where
  | connected
  | listening
  | processing
  | speaking
deriving DecidableEq

/-- A conversation-log message. -/
structure ChatMessage where
  isUser : Bool
  content : String
deriving DecidableEq

/-- The UI state touched by the status_change handler. -/
structure UiState where
  status : UiStatus
  messages : List ChatMessage
deriving DecidableEq

/-- The status_change handler: set the displayed status to processing for
ANALYZING or GENERATING and to connected for IDLE (any other state string
leaves it unchanged), then append a system message to the conversation log
exactly when the notification carries a description. -/
def statusChangeHandler (stateStr : String) (descr : Option String)
    (ui : UiState) : UiState :=
  let ui1 :=
    if stateStr = "ANALYZING" ∨ stateStr = "GENERATING" then
      { ui with status := UiStatus.processing }
    else if stateStr = "IDLE" then { ui with status := UiStatus.connected }
    else ui
  match descr with
  | some d =>
      { ui1 with messages :=
          ui1.messages ++ [{ isUser := false, content := "[System]: " ++ d }] }
  | none => ui1

/-- Claim C7: a state-change notification always carries one of the
enumerated states; on receiving it the client sets the status to
processing for Analyzing or Generating, to connected for Idle, and appends
one system message to the conversation log exactly when a description is
present. -/
theorem status_change_behavior (st : OrchState) (descr : Option String)
    (ui : UiState) :
    ((st = OrchState.Analyzing ∨ st = OrchState.Generating) →
      (statusChangeHandler (OrchState.wire st) descr ui).status
        = UiStatus.processing) ∧
    (st = OrchState.Idle →
      (statusChangeHandler (OrchState.wire st) descr ui).status
        = UiStatus.connected) ∧
    (∀ d : String, descr = some d →
      (statusChangeHandler (OrchState.wire st) descr ui).messages
        = ui.messages ++ [{ isUser := false, content := "[System]: " ++ d }]) ∧
    (descr = none →
      (statusChangeHandler (OrchState.wire st) descr ui).messages
        = ui.messages) := by
  refine ⟨?_, ?_, ?_, ?_⟩
  · rintro (rfl | rfl) <;>
      cases descr <;> simp [statusChangeHandler, OrchState.wire]
  · rintro rfl
    cases descr <;> simp [statusChangeHandler, OrchState.wire]
  · rintro d rfl
    cases st <;> simp [statusChangeHandler, OrchState.wire]
  · rintro rfl
    cases st <;> simp [statusChangeHandler, OrchState.wire]

/-- Witness for C7: a concrete ANALYZING notification with a description
sets the status to processing, and the description is appended. -/
theorem status_change_behavior_witness :
    (statusChangeHandler (OrchState.wire OrchState.Analyzing)
        (some "planning") { status := UiStatus.connected, messages := [] }).status
      = UiStatus.processing ∧
    (statusChangeHandler (OrchState.wire OrchState.Analyzing)
        (some "planning") { status := UiStatus.connected, messages := [] }).messages
      = [{ isUser := false, content := "[System]: planning" }] :=
  ⟨(status_change_behavior OrchState.Analyzing (some "planning")
      { status := UiStatus.connected, messages := [] }).1 (Or.inl rfl),
   by
    have h := (status_change_behavior OrchState.Analyzing (some "planning")
      { status := UiStatus.connected, messages := [] }).2.2.1 "planning" rfl
    simpa using h⟩

/-! ## Merge gate (backend; modelled from the spec)

The backend orchestrator (socket_handlers.py with its services) is not in
the repository snapshot; only the README documents it. The merge gate is
therefore modelled from the spec: per pending PullRequestRef the gate is a
state machine Pending → {Merged, Discarded, Abandoned}; while Pending,
each transcript is classified against the approve and reject keyword sets
listed in the README, reject checked before approve (the spec's fail-closed
precedence); approve calls the host merge operation, reject discards, no
match leaves the state unchanged. -/

/-- Modelled from the spec: the approve keyword set ("Voice Commands for
Merging" in the README). -/
def approveKeywords : List String :=
  ["yes", "merge", "approve", "go ahead", "do it"]

/-- Modelled from the spec: the reject keyword set ("Voice Commands for
Merging" in the README). -/
def rejectKeywords : List String :=
  ["no", "don\x27t", "cancel", "stop", "wait"]

/-- Whether kw occurs at the head of t. -/
def leadMatch : List Char → List Char → Bool
  | _, [] => true
  | [], _ :: _ => false
  | a :: as, b :: bs => a = b && leadMatch as bs

/-- Whether kw occurs contiguously anywhere in t. -/
def subMatch (t kw : List Char) : Bool :=
  match t with
  | [] => kw.isEmpty
  | _ :: rest => leadMatch t kw || subMatch rest kw

/-- Whether a transcript mentions a keyword phrase. -/
def mentions (t kw : String) : Bool := subMatch t.toList kw.toList

/-- The tri-state merge-decision classification of the spec. -/
inductive MergeDecision where
  | approve
  | reject
  | ambiguous
deriving DecidableEq

/-- Modelled from the spec: classify a transcript while a PullRequestRef
is pending — first match wins, reject checked before approve (fail
closed); no match on either set is ambiguous and changes nothing. -/
def classifyMergeDecision (t : String) : MergeDecision :=
  if rejectKeywords.any (fun kw => mentions t kw) then MergeDecision.reject
  else if approveKeywords.any (fun kw => mentions t kw) then
    MergeDecision.approve
  else MergeDecision.ambiguous

/-- The phases of a pending PullRequestRef in the merge gate. -/
inductive GatePhase where
  | Pending
  | Merged
  | Discarded
  | Abandoned
deriving DecidableEq

/-- The gate state for one PullRequestRef: its phase and how many times
the host merge operation has been called for it. -/
structure GateState where
  phase : GatePhase
  hostMergeCalls : Nat
deriving DecidableEq

/-- Modelled from the spec: one transcript arriving at the merge gate.
Only in Pending is the transcript evaluated as a MergeDecision candidate:
approve calls the host merge operation (Merged on success, Pending and
retryable on failure), reject discards, ambiguous changes nothing; the
terminal phases ignore transcripts. -/
def gateStep (hostMergeSucceeds : Bool) (s : GateState) (t : String) :
    GateState :=
  match s.phase with
  | GatePhase.Pending =>
      match classifyMergeDecision t with
      | MergeDecision.approve =>
          { phase := if hostMergeSucceeds then GatePhase.Merged
                     else GatePhase.Pending,
            hostMergeCalls := s.hostMergeCalls + 1 }
      | MergeDecision.reject => { s with phase := GatePhase.Discarded }
      | MergeDecision.ambiguous => s
  | _ => s

/-- Run the gate over a sequence of transcripts. -/
def gateRun (hostMergeSucceeds : Bool) (s : GateState) (ts : List String) :
    GateState :=
  ts.foldl (gateStep hostMergeSucceeds) s

/-- The gate state entered the moment the Change Publisher returns a
PullRequestRef. -/
def initialGate : GateState :=
  { phase := GatePhase.Pending, hostMergeCalls := 0 }

lemma gateStep_no_approve (hostMergeSucceeds : Bool) (ph : GatePhase)
    (n : Nat) (t : String)
    (ht : classifyMergeDecision t ≠ MergeDecision.approve)
    (h2 : ph ≠ GatePhase.Merged) :
    (gateStep hostMergeSucceeds ⟨ph, n⟩ t).hostMergeCalls = n ∧
    (gateStep hostMergeSucceeds ⟨ph, n⟩ t).phase ≠ GatePhase.Merged := by
  cases ph with
  | Pending =>
      cases hc : classifyMergeDecision t with
      | approve => exact absurd hc ht
      | reject => simp [gateStep, hc]
      | ambiguous => simp [gateStep, hc]
  | Merged => exact absurd rfl h2
  | Discarded => simp [gateStep]
  | Abandoned => simp [gateStep]

lemma gateRun_no_approve (hostMergeSucceeds : Bool) (s : GateState)
    (ts : List String)
    (ht : ∀ t ∈ ts, classifyMergeDecision t ≠ MergeDecision.approve)
    (h2 : s.phase ≠ GatePhase.Merged) :
    (gateRun hostMergeSucceeds s ts).hostMergeCalls = s.hostMergeCalls ∧
    (gateRun hostMergeSucceeds s ts).phase ≠ GatePhase.Merged := by
  induction ts generalizing s with
  | nil => exact ⟨rfl, h2⟩
  | cons t ts ih =>
      obtain ⟨ph, n⟩ := s
      obtain ⟨e1, e2⟩ := gateStep_no_approve hostMergeSucceeds ph n t
        (ht t (List.mem_cons_self t ts)) h2
      obtain ⟨f1, f2⟩ := ih (gateStep hostMergeSucceeds ⟨ph, n⟩ t)
        (fun u hu => ht u (List.mem_cons_of_mem t hu)) e2
      exact ⟨f1.trans e1, f2⟩

/-- Claim C1: if no transcript of a Pending episode classifies as approve,
the merge gate never calls the host merge operation and the
PullRequestRef never reaches Merged — regardless of whether the host
would report success. -/
theorem no_approve_no_merge (hostMergeSucceeds : Bool) (ts : List String)
    (ht : ∀ t ∈ ts, classifyMergeDecision t ≠ MergeDecision.approve) :
    (gateRun hostMergeSucceeds initialGate ts).hostMergeCalls = 0 ∧
    (gateRun hostMergeSucceeds initialGate ts).phase ≠ GatePhase.Merged :=
  gateRun_no_approve hostMergeSucceeds initialGate ts ht
    (by simp [initialGate])

/-- Witness for C1: a concrete episode of two non-approve transcripts (an
unintelligible one and an explicit rejection) never calls merge. -/
theorem no_approve_no_merge_witness :
    (gateRun true initialGate ["hello there", "cancel that"]).hostMergeCalls
        = 0 ∧
    (gateRun true initialGate ["hello there", "cancel that"]).phase
        ≠ GatePhase.Merged :=
  no_approve_no_merge true ["hello there", "cancel that"] (by decide)

end DriveCode
